import Mathlib

/-!
Verification of the deepfracture-demo viewer core against its source.

The development shallowly embeds, over exact rationals:
  - the Wavefront OBJ parser of src/lib/objParser.ts (parseOBJ,
    parseFaceToken, computeFaceNormals);
  - the 4x4 matrix multiply of the same file (lines 223-281);
  - the mesh normalizer of src/components/HavokViewer.tsx (normalizeMesh,
    lines 315-327, with Babylon's axis-aligned bounding box spelled out as
    componentwise min/max over the vertex list);
  - the one-shot collision ledger of src/components/HavokViewer.tsx
    (lines 177-201).

Modelling conventions:
  - JS numbers become rationals; Math.hypot(nx, ny, nz) is modelled as an
    abstract function sq applied to nx*nx + ny*ny + nz*nz (sq plays the
    square root, whose exact value is irrational and never needed: the
    theorems assume only sq 0 = 0 where they need it);
  - per-line lexing (trim, split on whitespace, parseFloat) is abstracted:
    an input text is a list of already-classified lines (ObjLine), where
    skip covers blank lines, comments and unrecognized identifiers, and
    face tokens carry the raw 1-based indices exactly as written;
  - JS array indexing arr[i] (undefined when out of range or negative)
    becomes listGetInt returning Option;
  - thrown exceptions become Except; the single throw site of the parser
    ("Vertex index ... missing in OBJ data", line 50) is ParseError.vertexIndexMissing.
-/

/-- three-component vector of exact rationals (a parsed [x, y, z] array). -/
structure Vec3 where
  x : ℚ
  y : ℚ
  z : ℚ
  deriving DecidableEq

/-- result record of parseOBJ (objParser.ts lines 1-4), with the two flat
Float32Array buffers modelled as rational lists. -/
structure ParsedOBJ where
  positions : List ℚ
  normals : List ℚ
  deriving DecidableEq

/-- FaceIndex record (objParser.ts lines 6-9): 0-based vertex index, optional
0-based normal index. -/
structure FaceIndex where
  vertexIndex : Int
  normalIndex : Option Int
  deriving DecidableEq

/-- the single error the parser can throw (objParser.ts line 50). -/
inductive ParseError where
  | vertexIndexMissing
  deriving DecidableEq

/-- one classified input line. vline/vnline carry the three parsed floats,
fline carries the raw face tokens as (1-based position index, optional
1-based normal index) pairs, and skip stands for a blank line, a comment, or
a line with an unrecognized identifier (objParser.ts lines 23-32 and 65). -/
inductive ObjLine where
  | vline (x y z : ℚ)
  | vnline (x y z : ℚ)
  | fline (toks : List (Int × Option Int))
  | skip
  deriving DecidableEq

/-- mutable state of the parseOBJ loop (objParser.ts lines 16-19). -/
structure PState where
  vertexPositions : List Vec3
  vertexNormals : List Vec3
  positionBuffer : List ℚ
  normalBuffer : List ℚ
  deriving DecidableEq

/-- JS array read arr[i]: some element when 0 <= i < length, none (undefined)
otherwise, including negative indices. -/
def listGetInt {α : Type} (l : List α) (i : Int) : Option α :=
  if 0 ≤ i then l.get? i.toNat else none

/-- parseFaceToken (objParser.ts lines 79-84): shift the 1-based indices down
by one; the texture-coordinate slot is dropped by the lexing abstraction. -/
def parseFaceToken (t : Int × Option Int) : FaceIndex :=
  { vertexIndex := t.1 - 1, normalIndex := t.2.map (fun n => n - 1) }

/-- body of tri.forEach (objParser.ts lines 47-63): look the position up
(throwing when absent), append its three components, then append the three
components of the referenced normal when present and in range, else zeros. -/
def pushVertex (s : PState) (f : FaceIndex) : Except ParseError PState :=
  match listGetInt s.vertexPositions f.vertexIndex with
  | none => Except.error ParseError.vertexIndexMissing
  | some p =>
    let s1 : PState := { s with positionBuffer := s.positionBuffer ++ [p.x, p.y, p.z] }
    match f.normalIndex with
    | some ni =>
      match listGetInt s1.vertexNormals ni with
      | some n => Except.ok { s1 with normalBuffer := s1.normalBuffer ++ [n.x, n.y, n.z] }
      | none => Except.ok { s1 with normalBuffer := s1.normalBuffer ++ [0, 0, 0] }
    | none => Except.ok { s1 with normalBuffer := s1.normalBuffer ++ [0, 0, 0] }

/-- one tri = [faceVertices[0], faceVertices[i], faceVertices[i+1]] pass of
the forEach (objParser.ts lines 46-63). -/
def pushTriangle (s : PState) (t0 t1 t2 : FaceIndex) : Except ParseError PState :=
  pushVertex s t0 >>= fun s1 => pushVertex s1 t1 >>= fun s2 => pushVertex s2 t2

/-- the fan loop for i = 1; i < faceVertices.length - 1 (objParser.ts
line 45), with l the tokens after faceVertices[0]: each step emits the
triangle (t0, l[0], l[1]) and continues from l[1]. -/
def pushFan (s : PState) (t0 : FaceIndex) : List FaceIndex → Except ParseError PState
  | t1 :: t2 :: rest => pushTriangle s t0 t1 t2 >>= fun s1 => pushFan s1 t0 (t2 :: rest)
  | _ => Except.ok s

/-- dispatch on one input line (objParser.ts lines 33-65): v appends a parsed
position, vn a parsed normal, f maps parseFaceToken over its tokens and fans
when at least 3 remain (the length < 3 continue of lines 41-43 is the
catch-all), and anything else is ignored. -/
def processLine (s : PState) : ObjLine → Except ParseError PState
  | ObjLine.vline x y z =>
    Except.ok { s with vertexPositions := s.vertexPositions ++ [⟨x, y, z⟩] }
  | ObjLine.vnline x y z =>
    Except.ok { s with vertexNormals := s.vertexNormals ++ [⟨x, y, z⟩] }
  | ObjLine.fline toks =>
    match toks.map parseFaceToken with
    | t0 :: t1 :: t2 :: rest => pushFan s t0 (t1 :: t2 :: rest)
    | _ => Except.ok s
  | ObjLine.skip => Except.ok s

/-- the for (const rawLine of lines) loop (objParser.ts lines 23-66). -/
def parseCore (s : PState) : List ObjLine → Except ParseError PState
  | [] => Except.ok s
  | l :: rest => processLine s l >>= fun s1 => parseCore s1 rest

/-- initial loop state: four empty arrays (objParser.ts lines 16-19). -/
def initState : PState :=
  { vertexPositions := [], vertexNormals := [], positionBuffer := [], normalBuffer := [] }

/-- cross product of the two edge vectors of one triangle
(objParser.ts lines 102-112). -/
def triCross (ax ay az bx byy bz cx cy cz : ℚ) : ℚ × ℚ × ℚ :=
  let ux := bx - ax
  let uy := byy - ay
  let uz := bz - az
  let vx := cx - ax
  let vy := cy - ay
  let vz := cz - az
  (uy * vz - uz * vy, uz * vx - ux * vz, ux * vy - uy * vx)

/-- Math.hypot(nx, ny, nz) || 1 (objParser.ts line 114): sq stands for the
square root applied to the sum of squares, and the || 1 guard replaces a zero
length by 1. -/
def safeLength (sq : ℚ → ℚ) (nx ny nz : ℚ) : ℚ :=
  let h := sq (nx * nx + ny * ny + nz * nz)
  if h = 0 then 1 else h

/-- computeFaceNormals (objParser.ts lines 86-131): walk the position buffer
nine entries at a time, write the normalized cross product into all three
vertex slots of the chunk. The catch-all keeps the fill(0) default for a
leftover shorter than 9 (parseOBJ only ever passes multiples of 9; on such a
leftover the source loop would read past the end of the array). -/
def computeFaceNormals (sq : ℚ → ℚ) : List ℚ → List ℚ
  | ax :: ay :: az :: bx :: byy :: bz :: cx :: cy :: cz :: rest =>
    let n := triCross ax ay az bx byy bz cx cy cz
    let len := safeLength sq n.1 n.2.1 n.2.2
    let nx := n.1 / len
    let ny := n.2.1 / len
    let nz := n.2.2 / len
    nx :: ny :: nz :: nx :: ny :: nz :: nx :: ny :: nz :: computeFaceNormals sq rest
  | rest => rest.map (fun _ => 0)

/-- parseOBJ (objParser.ts lines 15-77): run the line loop, then if no entry
of the normal buffer is nonzero (the !normalBuffer.some(v => v !== 0) test of
line 68, stated here positively), replace the whole buffer with
computeFaceNormals of the position buffer. -/
def parseOBJ (sq : ℚ → ℚ) (lines : List ObjLine) : Except ParseError ParsedOBJ :=
  match parseCore initState lines with
  | Except.error e => Except.error e
  | Except.ok s =>
    if s.normalBuffer.any (fun v => decide (v ≠ 0)) then
      Except.ok { positions := s.positionBuffer, normals := s.normalBuffer }
    else
      Except.ok { positions := s.positionBuffer, normals := computeFaceNormals sq s.positionBuffer }

/-- number of v lines in an input. -/
def countVLines : List ObjLine → Nat
  | [] => 0
  | ObjLine.vline _ _ _ :: rest => countVLines rest + 1
  | ObjLine.vnline _ _ _ :: rest => countVLines rest
  | ObjLine.fline _ :: rest => countVLines rest
  | ObjLine.skip :: rest => countVLines rest

/-- recognizer for face lines. -/
def isFaceLine : ObjLine → Bool
  | ObjLine.fline _ => true
  | _ => false

/-- the three position components a face vertex contributes (empty when its
position index resolves to nothing, in which case the parser throws instead). -/
def vertexPosCoords (vp : List Vec3) (f : FaceIndex) : List ℚ :=
  match listGetInt vp f.vertexIndex with
  | some p => [p.x, p.y, p.z]
  | none => []

/-- the three normal components a face vertex contributes: the referenced
normal when present and in range, zeros otherwise. -/
def vertexNormCoords (vn : List Vec3) (f : FaceIndex) : List ℚ :=
  match f.normalIndex with
  | some ni =>
    match listGetInt vn ni with
    | some n => [n.x, n.y, n.z]
    | none => [0, 0, 0]
  | none => [0, 0, 0]

/-- fan triangulation in index form, following the spec wording: token list
v1 .. vn yields the n-2 triples (v1, vi, vi+1) for i = 2 .. n-1 in order
(0-based here: (toks[0], toks[i+1], toks[i+2]) for i = 0 .. n-3).
d is a default never reached for lists of length at least 3. -/
def fanTriangles {α : Type} (d : α) (toks : List α) : List (α × α × α) :=
  (List.range (toks.length - 2)).map (fun i => (toks.getD 0 d, toks.getD (i + 1) d, toks.getD (i + 2) d))

/-- fan triangulation in the recursion shape of the source loop. -/
def fanTrianglesRec {α : Type} (t0 : α) : List α → List (α × α × α)
  | t1 :: t2 :: rest => (t0, t1, t2) :: fanTrianglesRec t0 (t2 :: rest)
  | _ => []

/-- column-major 4x4 matrix; field ei is the flat entry a[i] of the
Float32Array, so ei with i = 4 * column + row. -/
structure Mat4 where
  e0 : ℚ
  e1 : ℚ
  e2 : ℚ
  e3 : ℚ
  e4 : ℚ
  e5 : ℚ
  e6 : ℚ
  e7 : ℚ
  e8 : ℚ
  e9 : ℚ
  e10 : ℚ
  e11 : ℚ
  e12 : ℚ
  e13 : ℚ
  e14 : ℚ
  e15 : ℚ

/-- four-component column vector. -/
structure Vec4 where
  x : ℚ
  y : ℚ
  z : ℚ
  w : ℚ
  deriving DecidableEq

/-- multiply (objParser.ts lines 223-281), entry for entry: with the source
locals a00 = a[0], a01 = a[1], .., a10 = a[4], .., written here as field
reads, out[0] = a00 * b00 + a10 * b01 + a20 * b02 + a30 * b03 and so on. -/
def multiply (a b : Mat4) : Mat4 where
  e0 := a.e0 * b.e0 + a.e4 * b.e1 + a.e8 * b.e2 + a.e12 * b.e3
  e1 := a.e1 * b.e0 + a.e5 * b.e1 + a.e9 * b.e2 + a.e13 * b.e3
  e2 := a.e2 * b.e0 + a.e6 * b.e1 + a.e10 * b.e2 + a.e14 * b.e3
  e3 := a.e3 * b.e0 + a.e7 * b.e1 + a.e11 * b.e2 + a.e15 * b.e3
  e4 := a.e0 * b.e4 + a.e4 * b.e5 + a.e8 * b.e6 + a.e12 * b.e7
  e5 := a.e1 * b.e4 + a.e5 * b.e5 + a.e9 * b.e6 + a.e13 * b.e7
  e6 := a.e2 * b.e4 + a.e6 * b.e5 + a.e10 * b.e6 + a.e14 * b.e7
  e7 := a.e3 * b.e4 + a.e7 * b.e5 + a.e11 * b.e6 + a.e15 * b.e7
  e8 := a.e0 * b.e8 + a.e4 * b.e9 + a.e8 * b.e10 + a.e12 * b.e11
  e9 := a.e1 * b.e8 + a.e5 * b.e9 + a.e9 * b.e10 + a.e13 * b.e11
  e10 := a.e2 * b.e8 + a.e6 * b.e9 + a.e10 * b.e10 + a.e14 * b.e11
  e11 := a.e3 * b.e8 + a.e7 * b.e9 + a.e11 * b.e10 + a.e15 * b.e11
  e12 := a.e0 * b.e12 + a.e4 * b.e13 + a.e8 * b.e14 + a.e12 * b.e15
  e13 := a.e1 * b.e12 + a.e5 * b.e13 + a.e9 * b.e14 + a.e13 * b.e15
  e14 := a.e2 * b.e12 + a.e6 * b.e13 + a.e10 * b.e14 + a.e14 * b.e15
  e15 := a.e3 * b.e12 + a.e7 * b.e13 + a.e11 * b.e14 + a.e15 * b.e15

/-- action of a column-major matrix on a column vector: row r of the result
is the sum over columns c of m[4c + r] * v[c]. -/
def applyMat (m : Mat4) (v : Vec4) : Vec4 where
  x := m.e0 * v.x + m.e4 * v.y + m.e8 * v.z + m.e12 * v.w
  y := m.e1 * v.x + m.e5 * v.y + m.e9 * v.z + m.e13 * v.w
  z := m.e2 * v.x + m.e6 * v.y + m.e10 * v.z + m.e14 * v.w
  w := m.e3 * v.x + m.e7 * v.y + m.e11 * v.z + m.e15 * v.w

/-- the two contact keys of the dedup Set (HavokViewer.tsx
lines 184 and 192). -/
inductive ContactKey where
  | primary
  | plane
  deriving DecidableEq

/-- which body a delivered collision event reports as collidedAgainst. -/
inductive Collider where
  | primaryBody
  | planeBody
  | otherBody
  deriving DecidableEq

/-- ledger state of one session run: triggered models the Set of already
fired keys (HavokViewer.tsx line 177), alerts the window.alert calls
scheduled so far (their text is keyed by the contact). -/
structure CollisionState where
  triggered : List ContactKey
  alerts : List ContactKey
  deriving DecidableEq

/-- the collision observer body (HavokViewer.tsx lines 183-198): each of the
two ifs fires only when its key is not yet in the ledger, then records the
key and schedules the notification; the second if sees the ledger as left by
the first. -/
def handleCollisionEvent (s : CollisionState) (e : Collider) : CollisionState :=
  let s1 :=
    if e = Collider.primaryBody ∧ ContactKey.primary ∉ s.triggered then
      { triggered := ContactKey.primary :: s.triggered,
        alerts := s.alerts ++ [ContactKey.primary] }
    else s
  if e = Collider.planeBody ∧ ContactKey.plane ∉ s1.triggered then
    { triggered := ContactKey.plane :: s1.triggered,
      alerts := s1.alerts ++ [ContactKey.plane] }
  else s1

/-- deliver a whole run's event sequence to a fresh ledger. -/
def runCollisions (events : List Collider) : CollisionState :=
  events.foldl handleCollisionEvent { triggered := [], alerts := [] }

/-- least element of a rational list (0 on the empty list, never used there). -/
def listMin : List ℚ → ℚ
  | [] => 0
  | a :: rest => rest.foldl min a

/-- greatest element of a rational list (0 on the empty list, never used there). -/
def listMax : List ℚ → ℚ
  | [] => 0
  | a :: rest => rest.foldl max a

/-- componentwise minimum of a vertex list along the axis selected by f. -/
def minCoord (f : Vec3 → ℚ) (ps : List Vec3) : ℚ :=
  listMin (ps.map f)

/-- componentwise maximum of a vertex list along the axis selected by f. -/
def maxCoord (f : Vec3 → ℚ) (ps : List Vec3) : ℚ :=
  listMax (ps.map f)

/-- boundingBox.center of Babylon's axis-aligned box: midpoint of the
componentwise min and max of the vertices. -/
def aabbCenter (ps : List Vec3) : Vec3 :=
  { x := (minCoord Vec3.x ps + maxCoord Vec3.x ps) / 2,
    y := (minCoord Vec3.y ps + maxCoord Vec3.y ps) / 2,
    z := (minCoord Vec3.z ps + maxCoord Vec3.z ps) / 2 }

/-- boundingBox.extendSize: the half extents (max - min) / 2 per axis. -/
def extendSize (ps : List Vec3) : Vec3 :=
  { x := (maxCoord Vec3.x ps - minCoord Vec3.x ps) / 2,
    y := (maxCoord Vec3.y ps - minCoord Vec3.y ps) / 2,
    z := (maxCoord Vec3.z ps - minCoord Vec3.z ps) / 2 }

/-- Math.max(extend.x, extend.y, extend.z): the largest half extent. -/
def maxHalfExtent (ps : List Vec3) : ℚ :=
  max (max (extendSize ps).x (extendSize ps).y) (extendSize ps).z

/-- normalizeMesh (HavokViewer.tsx lines 315-327) acting on the vertex
positions: bake a translation by minus the box center into the vertices,
recompute the box, and scale uniformly by the reciprocal of the largest half
extent (the || 1 guard replacing a zero by 1). -/
def normalizeMesh (ps : List Vec3) : List Vec3 :=
  let c := aabbCenter ps
  let centered := ps.map (fun p => Vec3.mk (p.x - c.x) (p.y - c.y) (p.z - c.z))
  let m := maxHalfExtent centered
  let maxExtent := if m = 0 then 1 else m
  let uniformScale := 1 / maxExtent
  centered.map (fun p => Vec3.mk (uniformScale * p.x) (uniformScale * p.y) (uniformScale * p.z))

/-- the vertex list after baking the translation by minus the box center
(HavokViewer.tsx line 319). -/
def centeredMesh (ps : List Vec3) : List Vec3 :=
  ps.map (fun p => Vec3.mk (p.x - (aabbCenter ps).x) (p.y - (aabbCenter ps).y)
    (p.z - (aabbCenter ps).z))

/-- the uniform scale 1 / (Math.max(extend.x, extend.y, extend.z) || 1) of
the centered mesh (HavokViewer.tsx lines 323-324). -/
def normScale (ps : List Vec3) : ℚ :=
  1 / (if maxHalfExtent (centeredMesh ps) = 0 then 1 else maxHalfExtent (centeredMesh ps))

/-- concrete input for the C2 counterexample: a triangle whose three corners
all reference the explicitly supplied zero normal. -/
def c2Input : List ObjLine :=
  [ObjLine.vline 0 0 0, ObjLine.vline 1 0 0, ObjLine.vline 0 1 0,
   ObjLine.vnline 0 0 0,
   ObjLine.fline [(1, some 1), (2, some 1), (3, some 1)]]

/-- concrete input for the C3 counterexample: a two-token face whose tokens
reference positions 5 and 6 although no v line exists. -/
def c3Input : List ObjLine :=
  [ObjLine.fline [(5, none), (6, none)]]

/-- concrete input for the C3 witness: a three-token face referencing
position 2 when only one v line was parsed. -/
def c3WitnessInput : List ObjLine :=
  [ObjLine.vline 0 0 0, ObjLine.fline [(1, none), (2, none), (3, none)]]

/-- concrete state for the C4 witness: four parsed vertices of a unit quad. -/
def quadState : PState :=
  { vertexPositions := [⟨0, 0, 0⟩, ⟨1, 0, 0⟩, ⟨1, 1, 0⟩, ⟨0, 1, 0⟩],
    vertexNormals := [], positionBuffer := [], normalBuffer := [] }

/-- concrete face tokens for the C4 witness: the quad face f 1 2 3 4. -/
def quadToks : List (Int × Option Int) :=
  [(1, none), (2, none), (3, none), (4, none)]

/-- concrete input for the C5 witness: one triangle, no normals. -/
def c5Input : List ObjLine :=
  [ObjLine.vline 0 0 0, ObjLine.vline 1 0 0, ObjLine.vline 0 1 0,
   ObjLine.fline [(1, none), (2, none), (3, none)]]

/-- parse result of c5Input under sq = id: the synthesized normal of the
triangle is (0, 0, 1), replicated across its three vertices. -/
def c5Mesh : ParsedOBJ :=
  { positions := [0, 0, 0, 1, 0, 0, 0, 1, 0],
    normals := [0, 0, 1, 0, 0, 1, 0, 0, 1] }

/-- concrete vertex list for the C6 witness: box corners (0,0,0), (4,2,0). -/
def c6Input : List Vec3 :=
  [⟨0, 0, 0⟩, ⟨4, 2, 0⟩]

/-- default FaceIndex handed to fanTriangles (never reached on real faces). -/
def dFI : FaceIndex :=
  { vertexIndex := 0, normalIndex := none }

/-- flat position coordinates of a triangle list, three vertices each. -/
def fanPosCoords (vp : List Vec3) (tris : List (FaceIndex × FaceIndex × FaceIndex)) : List ℚ :=
  (tris.map (fun tri => vertexPosCoords vp tri.1 ++
    vertexPosCoords vp tri.2.1 ++ vertexPosCoords vp tri.2.2)).flatten

/-- flat normal coordinates of a triangle list, three vertices each. -/
def fanNormCoords (vn : List Vec3) (tris : List (FaceIndex × FaceIndex × FaceIndex)) : List ℚ :=
  (tris.map (fun tri => vertexNormCoords vn tri.1 ++
    vertexNormCoords vn tri.2.1 ++ vertexNormCoords vn tri.2.2)).flatten

/-- state after one successful face-vertex push: both buffers extended by the
three position components and the three resolved normal components. -/
def pushResult (s : PState) (f : FaceIndex) : PState :=
  { s with positionBuffer := s.positionBuffer ++ vertexPosCoords s.vertexPositions f,
           normalBuffer := s.normalBuffer ++ vertexNormCoords s.vertexNormals f }

/-- ledger invariant: each key is scheduled at most once, and not at all
while it is absent from the ledger. -/
def LedgerInv (s : CollisionState) : Prop :=
  (s.alerts.count ContactKey.primary ≤ 1 ∧
    (ContactKey.primary ∉ s.triggered → s.alerts.count ContactKey.primary = 0)) ∧
  (s.alerts.count ContactKey.plane ≤ 1 ∧
    (ContactKey.plane ∉ s.triggered → s.alerts.count ContactKey.plane = 0))


/-! ## Shared helper lemmas -/

/-- splitting the line loop at a concatenation point. -/
theorem parseCore_append (l1 l2 : List ObjLine) : ∀ s : PState,
    parseCore s (l1 ++ l2) = (parseCore s l1 >>= fun s1 => parseCore s1 l2) := by
  induction l1 with
  | nil => intro s; rfl
  | cons l rest ih =>
    intro s
    cases h : processLine s l with
    | error e => simp [parseCore, h, Bind.bind, Except.bind]
    | ok s1 => simp [parseCore, h, Bind.bind, Except.bind, ih s1]

/-- a face line with fewer than 3 tokens leaves the state untouched. -/
theorem processLine_short_face (s : PState) (toks : List (Int × Option Int))
    (h : toks.length < 3) : processLine s (ObjLine.fline toks) = Except.ok s := by
  match toks, h with
  | [], _ => rfl
  | [_], _ => rfl
  | [_, _], _ => rfl

/-- lines that are not face lines never touch the two output buffers. -/
theorem parseCore_no_face (lines : List ObjLine) : ∀ s : PState,
    (∀ l ∈ lines, isFaceLine l = false) →
    ∃ s' : PState, parseCore s lines = Except.ok s' ∧
      s'.positionBuffer = s.positionBuffer ∧ s'.normalBuffer = s.normalBuffer := by
  induction lines with
  | nil => intro s _; exact ⟨s, rfl, rfl, rfl⟩
  | cons l rest ih =>
    intro s hf
    have hl : isFaceLine l = false := hf l (List.mem_cons_self l rest)
    have hrest : ∀ l' ∈ rest, isFaceLine l' = false :=
      fun l' hmem => hf l' (List.mem_cons_of_mem l hmem)
    cases l with
    | vline x y z =>
      obtain ⟨s', h1, h2, h3⟩ :=
        ih { s with vertexPositions := s.vertexPositions ++ [⟨x, y, z⟩] } hrest
      exact ⟨s', by simpa [parseCore, processLine, Bind.bind, Except.bind] using h1, h2, h3⟩
    | vnline x y z =>
      obtain ⟨s', h1, h2, h3⟩ :=
        ih { s with vertexNormals := s.vertexNormals ++ [⟨x, y, z⟩] } hrest
      exact ⟨s', by simpa [parseCore, processLine, Bind.bind, Except.bind] using h1, h2, h3⟩
    | fline toks => simp [isFaceLine] at hl
    | skip =>
      obtain ⟨s', h1, h2, h3⟩ := ih s hrest
      exact ⟨s', by simpa [parseCore, processLine, Bind.bind, Except.bind] using h1, h2, h3⟩

/-! ## C1 -/

/-- C1 counterexample: on the empty input text the parser does not raise any
error; it returns the empty FlatMesh, contradicting the claim that a
degenerate mesh (no faces, fewer than 3 vertices) fails with
MalformedGeometry. -/
theorem c1_counterexample :
    parseOBJ (fun q => q) [] = Except.ok { positions := [], normals := [] } := rfl

/-- C1 amended: for every input text with no face lines and fewer than 3
v lines (including the empty text), the parser succeeds and returns the
empty FlatMesh instead of raising an error. -/
theorem c1_degenerate_ok (sq : ℚ → ℚ) (lines : List ObjLine)
    (hf : ∀ l ∈ lines, isFaceLine l = false) (hv : countVLines lines < 3) :
    parseOBJ sq lines = Except.ok { positions := [], normals := [] } := by
  obtain ⟨s', h1, h2, h3⟩ := parseCore_no_face lines initState hf
  have h2' : s'.positionBuffer = [] := h2
  have h3' : s'.normalBuffer = [] := h3
  simp [parseOBJ, h1, h2', h3', computeFaceNormals]

/-- C1 witness: the amended statement applied to the one-vertex input. -/
theorem c1_witness :
    parseOBJ (fun q => q) [ObjLine.vline 0 0 0] =
      Except.ok { positions := [], normals := [] } :=
  c1_degenerate_ok (fun q => q) [ObjLine.vline 0 0 0]
    (by intro l hl; simp at hl; simp [hl, isFaceLine]) (by simp [countVLines])

/-! ## C7 -/

/-- C7: multiply is column-major composition, apply B then A: for all 4x4
matrices A, B and every 4-component column vector v, applying multiply(A, B)
to v equals applying A to the result of applying B to v, over exact
arithmetic on the entries. -/
theorem multiply_is_composition (a b : Mat4) (v : Vec4) :
    applyMat (multiply a b) v = applyMat a (applyMat b v) := by
  simp only [applyMat, multiply, Vec4.mk.injEq]
  refine ⟨by ring, by ring, by ring, by ring⟩

/-! ## C8 -/

/-- one delivered event preserves the ledger invariant. -/
theorem handleCollisionEvent_inv (s : CollisionState) (e : Collider)
    (h : LedgerInv s) : LedgerInv (handleCollisionEvent s e) := by
  obtain ⟨⟨hp1, hp0⟩, ⟨hq1, hq0⟩⟩ := h
  cases e with
  | primaryBody =>
    by_cases hmem : ContactKey.primary ∈ s.triggered
    · have : handleCollisionEvent s Collider.primaryBody = s := by
        simp [handleCollisionEvent, hmem]
      rw [this]; exact ⟨⟨hp1, hp0⟩, hq1, hq0⟩
    · have hz := hp0 hmem
      have : handleCollisionEvent s Collider.primaryBody =
          { triggered := ContactKey.primary :: s.triggered,
            alerts := s.alerts ++ [ContactKey.primary] } := by
        simp [handleCollisionEvent, hmem]
      rw [this]
      refine ⟨⟨?_, ?_⟩, ?_, ?_⟩ <;>
        simp_all [List.count_append, List.count_cons, List.count_nil]
  | planeBody =>
    by_cases hmem : ContactKey.plane ∈ s.triggered
    · have : handleCollisionEvent s Collider.planeBody = s := by
        simp [handleCollisionEvent, hmem]
      rw [this]; exact ⟨⟨hp1, hp0⟩, hq1, hq0⟩
    · have hz := hq0 hmem
      have : handleCollisionEvent s Collider.planeBody =
          { triggered := ContactKey.plane :: s.triggered,
            alerts := s.alerts ++ [ContactKey.plane] } := by
        simp [handleCollisionEvent, hmem]
      rw [this]
      refine ⟨⟨?_, ?_⟩, ?_, ?_⟩ <;>
        simp_all [List.count_append, List.count_cons, List.count_nil]
  | otherBody =>
    have : handleCollisionEvent s Collider.otherBody = s := by
      simp [handleCollisionEvent]
    rw [this]; exact ⟨⟨hp1, hp0⟩, hq1, hq0⟩

/-- folding any event sequence from an invariant state stays invariant. -/
theorem foldl_handleCollisionEvent_inv (events : List Collider) :
    ∀ s : CollisionState, LedgerInv s → LedgerInv (events.foldl handleCollisionEvent s) := by
  induction events with
  | nil => intro s h; exact h
  | cons e rest ih => intro s h; exact ih _ (handleCollisionEvent_inv s e h)

/-- C8: collision notifications are one-shot per contact key per run: however
many collision events a run delivers, at most one notification is scheduled
for the primary contact and at most one for the plane contact. -/
theorem collision_notifications_one_shot (events : List Collider) :
    (runCollisions events).alerts.count ContactKey.primary ≤ 1 ∧
    (runCollisions events).alerts.count ContactKey.plane ≤ 1 := by
  have h := foldl_handleCollisionEvent_inv events { triggered := [], alerts := [] }
    (by constructor <;> exact ⟨by simp, fun _ => by simp⟩)
  exact ⟨h.1.1, h.2.1⟩

/-! ## C10 -/

/-- C10: computeFaceNormals never divides by zero and is total on degenerate
triangles: the guarded length is nonzero for every input, and a triangle
whose two edge vectors have zero cross product gets the zero vector at all
three of its vertex slots (divisor 1, entries 0), for any square-root
function with sq 0 = 0. -/
theorem computeFaceNormals_degenerate_safe (sq : ℚ → ℚ) (hsq : sq 0 = 0)
    (ax ay az bx byy bz cx cy cz : ℚ)
    (hdeg : triCross ax ay az bx byy bz cx cy cz = (0, 0, 0)) :
    (∀ px py pz : ℚ, safeLength sq px py pz ≠ 0) ∧
    safeLength sq 0 0 0 = 1 ∧
    computeFaceNormals sq [ax, ay, az, bx, byy, bz, cx, cy, cz] =
      [0, 0, 0, 0, 0, 0, 0, 0, 0] := by
  refine ⟨?_, ?_, ?_⟩
  · intro px py pz
    by_cases h : sq (px * px + py * py + pz * pz) = 0
    · simp [safeLength, h]
    · simp [safeLength, h]
  · simp [safeLength, hsq]
  · simp [computeFaceNormals, hdeg, safeLength, hsq]

/-- C10 witness: the theorem applied to sq = id and the degenerate triangle
with collinear corners (0,0,0), (1,1,1), (2,2,2). -/
theorem c10_witness :
    (∀ px py pz : ℚ, safeLength (fun q => q) px py pz ≠ 0) ∧
    safeLength (fun q => q) 0 0 0 = 1 ∧
    computeFaceNormals (fun q => q) [0, 0, 0, 1, 1, 1, 2, 2, 2] =
      [0, 0, 0, 0, 0, 0, 0, 0, 0] :=
  computeFaceNormals_degenerate_safe (fun q => q) rfl 0 0 0 1 1 1 2 2 2
    (by norm_num [triCross])

/-- JS indexing misses exactly the out-of-range indices. -/
theorem listGetInt_none_of_out {α : Type} (l : List α) (i : Int)
    (h : i < 0 ∨ (l.length : Int) ≤ i) : listGetInt l i = none := by
  unfold listGetInt
  rcases h with h | h
  · rw [if_neg (by omega)]
  · rw [if_pos (by omega)]
    exact List.get?_eq_none.mpr (by omega)

/-- characterization of one successful face-vertex push: the looked-up
position's components and the resolved normal components are appended. -/
theorem pushVertex_some (s : PState) (f : FaceIndex) (p : Vec3)
    (h : listGetInt s.vertexPositions f.vertexIndex = some p) :
    pushVertex s f = Except.ok (pushResult s f) := by
  cases hf : f.normalIndex with
  | none => simp [pushVertex, pushResult, vertexPosCoords, vertexNormCoords, h, hf]
  | some ni =>
    cases hn : listGetInt s.vertexNormals ni <;>
      simp [pushVertex, pushResult, vertexPosCoords, vertexNormCoords, h, hf, hn]

/-- a face vertex whose position index resolves to nothing throws. -/
theorem pushVertex_none (s : PState) (f : FaceIndex)
    (h : listGetInt s.vertexPositions f.vertexIndex = none) :
    pushVertex s f = Except.error ParseError.vertexIndexMissing := by
  unfold pushVertex
  rw [h]

/-- the normal contribution of a face vertex is always three entries. -/
theorem vertexNormCoords_length (vn : List Vec3) (f : FaceIndex) :
    (vertexNormCoords vn f).length = 3 := by
  cases hf : f.normalIndex with
  | none => simp [vertexNormCoords, hf]
  | some ni => cases hn : listGetInt vn ni <;> simp [vertexNormCoords, hf, hn]

/-- bookkeeping of one successful face-vertex push: the vertex tables are
untouched, the two buffers grow by exactly three entries each, and the
pushed position index was in range. -/
theorem pushVertex_ok_facts (s s' : PState) (f : FaceIndex)
    (h : pushVertex s f = Except.ok s') :
    s'.vertexPositions = s.vertexPositions ∧ s'.vertexNormals = s.vertexNormals ∧
    s'.positionBuffer.length = s.positionBuffer.length + 3 ∧
    s'.normalBuffer.length = s.normalBuffer.length + 3 ∧
    (listGetInt s.vertexPositions f.vertexIndex).isSome := by
  cases hl : listGetInt s.vertexPositions f.vertexIndex with
  | none => rw [pushVertex_none s f hl] at h; cases h
  | some p =>
    rw [pushVertex_some s f p hl] at h
    cases h
    refine ⟨rfl, rfl, ?_, ?_, by simp [hl]⟩
    · simp [pushResult, vertexPosCoords, hl]
    · simp [pushResult, vertexNormCoords_length]

/-- bookkeeping of one successful triangle push. -/
theorem pushTriangle_ok_facts (s s' : PState) (t0 t1 t2 : FaceIndex)
    (h : pushTriangle s t0 t1 t2 = Except.ok s') :
    s'.vertexPositions = s.vertexPositions ∧ s'.vertexNormals = s.vertexNormals ∧
    s'.positionBuffer.length = s.positionBuffer.length + 9 ∧
    s'.normalBuffer.length = s.normalBuffer.length + 9 ∧
    (listGetInt s.vertexPositions t0.vertexIndex).isSome ∧
    (listGetInt s.vertexPositions t1.vertexIndex).isSome ∧
    (listGetInt s.vertexPositions t2.vertexIndex).isSome := by
  unfold pushTriangle at h
  cases h0 : pushVertex s t0 with
  | error e => rw [h0] at h; cases h
  | ok sa =>
    rw [h0] at h
    cases h1 : pushVertex sa t1 with
    | error e => simp [h1, Bind.bind, Except.bind] at h
    | ok sb =>
      simp only [h1, Bind.bind, Except.bind] at h
      obtain ⟨va, wa, xa, ya, za⟩ := pushVertex_ok_facts s sa t0 h0
      obtain ⟨vb, wb, xb, yb, zb⟩ := pushVertex_ok_facts sa sb t1 h1
      obtain ⟨vc, wc, xc, yc, zc⟩ := pushVertex_ok_facts sb s' t2 h
      refine ⟨by rw [vc, vb, va], by rw [wc, wb, wa], by omega, by omega, za, ?_, ?_⟩
      · rw [va] at zb; exact zb
      · rw [vb, va] at zc; exact zc

/-- bookkeeping of one successful fan: vertex tables untouched, both buffers
grow by nine entries per emitted triangle. -/
theorem pushFan_ok_facts (t0 : FaceIndex) (l : List FaceIndex) : ∀ s s' : PState,
    pushFan s t0 l = Except.ok s' →
    s'.vertexPositions = s.vertexPositions ∧ s'.vertexNormals = s.vertexNormals ∧
    ∃ k, s'.positionBuffer.length = s.positionBuffer.length + 9 * k ∧
      s'.normalBuffer.length = s.normalBuffer.length + 9 * k := by
  induction l with
  | nil =>
    intro s s' h
    cases h
    exact ⟨rfl, rfl, 0, by simp, by simp⟩
  | cons t1 l' ih =>
    intro s s' h
    cases l' with
    | nil =>
      cases h
      exact ⟨rfl, rfl, 0, by simp, by simp⟩
    | cons t2 rest =>
      unfold pushFan at h
      cases htri : pushTriangle s t0 t1 t2 with
      | error e => rw [htri] at h; cases h
      | ok s1 =>
        rw [htri] at h
        simp only [Bind.bind, Except.bind] at h
        obtain ⟨v1, w1, x1, y1, _⟩ := pushTriangle_ok_facts s s1 t0 t1 t2 htri
        obtain ⟨v2, w2, k, x2, y2⟩ := ih s1 s' h
        exact ⟨by rw [v2, v1], by rw [w2, w1], k + 1, by omega, by omega⟩

/-! ## C9 -/

/-- C9: a face line with fewer than 3 vertex tokens is silently skipped: for
every surrounding input, parsing with the short face line present gives
exactly the same result as parsing without it, with no error raised. -/
theorem short_face_line_skipped (sq : ℚ → ℚ) (pre post : List ObjLine)
    (toks : List (Int × Option Int)) (h : toks.length < 3) :
    parseOBJ sq (pre ++ ObjLine.fline toks :: post) = parseOBJ sq (pre ++ post) := by
  unfold parseOBJ
  have hcore : parseCore initState (pre ++ ObjLine.fline toks :: post) =
      parseCore initState (pre ++ post) := by
    rw [parseCore_append, parseCore_append]
    cases hp : parseCore initState pre with
    | error e => simp [Bind.bind, Except.bind]
    | ok s1 =>
      simp [Bind.bind, Except.bind, parseCore, processLine_short_face s1 toks h]
  rw [hcore]

/-- C9 witness: the theorem applied to a one-token face line between a vertex
line and an ignored line. -/
theorem c9_witness :
    parseOBJ (fun q => q) ([ObjLine.vline 0 0 0] ++ ObjLine.fline [(7, none)] :: [ObjLine.skip]) =
      parseOBJ (fun q => q) ([ObjLine.vline 0 0 0] ++ [ObjLine.skip]) :=
  short_face_line_skipped (fun q => q) [ObjLine.vline 0 0 0] [ObjLine.skip]
    [(7, none)] (by simp)

/-! ## C3 -/

/-- C3 counterexample: the input consisting of the single face line f 5 6
references positions 5 and 6 although no vertex line exists at all, yet the
parser returns the empty FlatMesh instead of raising an error, because face
lines with fewer than 3 tokens are dropped before their indices are checked. -/
theorem c3_counterexample :
    parseOBJ (fun q => q) c3Input = Except.ok { positions := [], normals := [] } := rfl

/-- a fan over tokens one of which misses the vertex table throws. -/
theorem pushFan_error_of_bad (t0 : FaceIndex) (l : List FaceIndex) : ∀ s : PState,
    (∃ f ∈ t0 :: l, listGetInt s.vertexPositions f.vertexIndex = none) →
    2 ≤ l.length →
    pushFan s t0 l = Except.error ParseError.vertexIndexMissing := by
  induction l with
  | nil => intro s _ h2; simp at h2
  | cons t1 l' ih =>
    intro s hbad h2
    cases l' with
    | nil => simp at h2
    | cons t2 rest =>
      unfold pushFan
      cases htri : pushTriangle s t0 t1 t2 with
      | error e => cases e; simp [Bind.bind, Except.bind]
      | ok s1 =>
        simp only [Bind.bind, Except.bind]
        obtain ⟨v1, w1, x1, y1, z0, z1, z2⟩ := pushTriangle_ok_facts s s1 t0 t1 t2 htri
        obtain ⟨f, hfmem, hfnone⟩ := hbad
        have hf' : f ∈ rest := by
          rcases List.mem_cons.mp hfmem with rfl | hf1
          · rw [hfnone] at z0; simp at z0
          rcases List.mem_cons.mp hf1 with rfl | hf2
          · rw [hfnone] at z1; simp at z1
          rcases List.mem_cons.mp hf2 with rfl | hf3
          · rw [hfnone] at z2; simp at z2
          exact hf3
        apply ih s1
        · exact ⟨f, List.mem_cons_of_mem t0 (List.mem_cons_of_mem t2 hf'),
            by rw [v1]; exact hfnone⟩
        · have := List.length_pos.mpr (List.ne_nil_of_mem hf')
          simp
          omega

/-- a face line of at least 3 tokens one of which references a position with
no parsed vertex line throws. -/
theorem processLine_bad_face (s : PState) (toks : List (Int × Option Int))
    (h3 : 3 ≤ toks.length)
    (hbad : ∃ t ∈ toks, listGetInt s.vertexPositions (t.1 - 1) = none) :
    processLine s (ObjLine.fline toks) = Except.error ParseError.vertexIndexMissing := by
  match toks, h3 with
  | tk0 :: tk1 :: tk2 :: tks, _ =>
    have hshape : processLine s (ObjLine.fline (tk0 :: tk1 :: tk2 :: tks)) =
        pushFan s (parseFaceToken tk0)
          (parseFaceToken tk1 :: parseFaceToken tk2 :: tks.map parseFaceToken) := by
      simp [processLine]
    rw [hshape]
    apply pushFan_error_of_bad
    · obtain ⟨t, htmem, hnone⟩ := hbad
      refine ⟨parseFaceToken t, ?_, hnone⟩
      have hmm : parseFaceToken t ∈ (tk0 :: tk1 :: tk2 :: tks).map parseFaceToken :=
        List.mem_map_of_mem parseFaceToken htmem
      simpa using hmm
    · simp

/-- ok processLine steps grow the parsed-vertex table by exactly the number
of v lines they consume. -/
theorem processLine_vp_count (s s1 : PState) (l : ObjLine)
    (h : processLine s l = Except.ok s1) :
    s1.vertexPositions.length = s.vertexPositions.length + countVLines [l] := by
  cases l with
  | vline x y z => cases h; simp [countVLines]
  | vnline x y z => cases h; simp [countVLines]
  | skip => cases h; simp [countVLines]
  | fline toks =>
    simp only [processLine] at h
    cases hm : toks.map parseFaceToken with
    | nil => rw [hm] at h; cases h; simp [countVLines]
    | cons t0 l' =>
      cases l' with
      | nil => rw [hm] at h; cases h; simp [countVLines]
      | cons t1 l'' =>
        cases l'' with
        | nil => rw [hm] at h; cases h; simp [countVLines]
        | cons t2 rest =>
          rw [hm] at h
          obtain ⟨v, _, _⟩ := pushFan_ok_facts t0 (t1 :: t2 :: rest) s s1 h
          simp [v, countVLines]

/-- counting v lines distributes over cons. -/
theorem countVLines_cons (l : ObjLine) (rest : List ObjLine) :
    countVLines (l :: rest) = countVLines [l] + countVLines rest := by
  cases l <;> simp [countVLines] <;> omega

/-- if some face line of at least 3 tokens references a position index that
is nonpositive or beyond every v line the whole input can supply, the line
loop throws. -/
theorem parseCore_error_of_bad (lines : List ObjLine) : ∀ s : PState,
    (∃ toks, ObjLine.fline toks ∈ lines ∧ 3 ≤ toks.length ∧
      ∃ t ∈ toks, t.1 ≤ 0 ∨
        ((s.vertexPositions.length + countVLines lines : ℕ) : Int) < t.1) →
    parseCore s lines = Except.error ParseError.vertexIndexMissing := by
  induction lines with
  | nil =>
    intro s h
    obtain ⟨toks, hmem, _⟩ := h
    simp at hmem
  | cons l rest ih =>
    intro s h
    obtain ⟨toks, hmem, h3, t, htmem, hbound⟩ := h
    rcases List.mem_cons.mp hmem with heq | hmem'
    · subst heq
      have hcv : countVLines (ObjLine.fline toks :: rest) = countVLines rest := by
        simp [countVLines]
      have hproc : processLine s (ObjLine.fline toks) =
          Except.error ParseError.vertexIndexMissing := by
        apply processLine_bad_face s toks h3
        refine ⟨t, htmem, ?_⟩
        apply listGetInt_none_of_out
        rcases hbound with hb | hb
        · left; omega
        · right; rw [hcv] at hb; omega
      simp [parseCore, hproc, Bind.bind, Except.bind]
    · cases hres : processLine s l with
      | error e =>
        cases e
        simp [parseCore, hres, Bind.bind, Except.bind]
      | ok s1 =>
        have hstep : parseCore s (l :: rest) = parseCore s1 rest := by
          simp [parseCore, hres, Bind.bind, Except.bind]
        rw [hstep]
        apply ih s1
        refine ⟨toks, hmem', h3, t, htmem, ?_⟩
        have hvp := processLine_vp_count s s1 l hres
        have hc := countVLines_cons l rest
        rcases hbound with hb | hb
        · left; exact hb
        · right; omega

/-- C3 amended: for every input text in which some face line carrying at
least 3 vertex tokens contains a token whose 1-based position index is
nonpositive or exceeds the number of v lines in the whole input, the parser
raises its vertex-index error instead of returning a FlatMesh. (Face lines
with fewer than 3 tokens are skipped whole, indices unchecked, and cannot
trigger the error.) -/
theorem c3_invalid_index_error (sq : ℚ → ℚ) (lines : List ObjLine)
    (h : ∃ toks, ObjLine.fline toks ∈ lines ∧ 3 ≤ toks.length ∧
      ∃ t ∈ toks, t.1 ≤ 0 ∨ (countVLines lines : Int) < t.1) :
    parseOBJ sq lines = Except.error ParseError.vertexIndexMissing := by
  have hcore : parseCore initState lines = Except.error ParseError.vertexIndexMissing := by
    apply parseCore_error_of_bad lines initState
    obtain ⟨toks, hmem, h3, t, htmem, hb⟩ := h
    exact ⟨toks, hmem, h3, t, htmem, by simpa [initState] using hb⟩
  simp [parseOBJ, hcore]

/-- C3 witness: the amended statement applied to an input with one v line and
the face f 1 2 3, whose token 2 exceeds the single parsed vertex. -/
theorem c3_witness :
    parseOBJ (fun q => q) c3WitnessInput = Except.error ParseError.vertexIndexMissing :=
  c3_invalid_index_error (fun q => q) c3WitnessInput
    ⟨[(1, none), (2, none), (3, none)], by simp [c3WitnessInput], by simp,
      (2, none), by simp, by right; norm_num [c3WitnessInput, countVLines]⟩

/-! ## C5 -/

/-- ok processLine steps grow both output buffers by nine entries per emitted
triangle, keeping them in lockstep. -/
theorem processLine_lens (s s1 : PState) (l : ObjLine)
    (h : processLine s l = Except.ok s1) :
    ∃ k, s1.positionBuffer.length = s.positionBuffer.length + 9 * k ∧
      s1.normalBuffer.length = s.normalBuffer.length + 9 * k := by
  cases l with
  | vline x y z => cases h; exact ⟨0, by simp, by simp⟩
  | vnline x y z => cases h; exact ⟨0, by simp, by simp⟩
  | skip => cases h; exact ⟨0, by simp, by simp⟩
  | fline toks =>
    simp only [processLine] at h
    cases hm : toks.map parseFaceToken with
    | nil => rw [hm] at h; cases h; exact ⟨0, by simp, by simp⟩
    | cons t0 l' =>
      cases l' with
      | nil => rw [hm] at h; cases h; exact ⟨0, by simp, by simp⟩
      | cons t1 l'' =>
        cases l'' with
        | nil => rw [hm] at h; cases h; exact ⟨0, by simp, by simp⟩
        | cons t2 rest =>
          rw [hm] at h
          obtain ⟨_, _, k, hk1, hk2⟩ := pushFan_ok_facts t0 (t1 :: t2 :: rest) s s1 h
          exact ⟨k, hk1, hk2⟩

/-- over a whole successful run of the line loop the two buffers grow in
lockstep by a multiple of nine. -/
theorem parseCore_lens (lines : List ObjLine) : ∀ s s' : PState,
    parseCore s lines = Except.ok s' →
    ∃ k, s'.positionBuffer.length = s.positionBuffer.length + 9 * k ∧
      s'.normalBuffer.length = s.normalBuffer.length + 9 * k := by
  induction lines with
  | nil => intro s s' h; cases h; exact ⟨0, by simp, by simp⟩
  | cons l rest ih =>
    intro s s' h
    cases hres : processLine s l with
    | error e => simp [parseCore, hres, Bind.bind, Except.bind] at h
    | ok s1 =>
      simp only [parseCore, hres, Bind.bind, Except.bind] at h
      obtain ⟨k1, ha1, ha2⟩ := processLine_lens s s1 l hres
      obtain ⟨k2, hb1, hb2⟩ := ih s1 s' h
      exact ⟨k1 + k2, by omega, by omega⟩

/-- computeFaceNormals preserves the buffer length. -/
theorem computeFaceNormals_length (sq : ℚ → ℚ) :
    ∀ l : List ℚ, (computeFaceNormals sq l).length = l.length
  | [] => by simp [computeFaceNormals]
  | [a] => by simp [computeFaceNormals]
  | [a, b] => by simp [computeFaceNormals]
  | [a, b, c] => by simp [computeFaceNormals]
  | [a, b, c, d] => by simp [computeFaceNormals]
  | [a, b, c, d, e] => by simp [computeFaceNormals]
  | [a, b, c, d, e, f] => by simp [computeFaceNormals]
  | [a, b, c, d, e, f, g] => by simp [computeFaceNormals]
  | [a, b, c, d, e, f, g, h] => by simp [computeFaceNormals]
  | ax :: ay :: az :: bx :: byy :: bz :: cx :: cy :: cz :: rest => by
    have ih := computeFaceNormals_length sq rest
    simp [computeFaceNormals, ih]

/-- C5: whenever the parser succeeds, the returned position and normal
buffers have equal length and that length is a multiple of 9, i.e. 9 entries
for each of the emitted triangles, whether the normals were collected from
the input or synthesized by the fallback. -/
theorem parse_buffers_lockstep (sq : ℚ → ℚ) (lines : List ObjLine) (m : ParsedOBJ)
    (h : parseOBJ sq lines = Except.ok m) :
    m.normals.length = m.positions.length ∧ 9 ∣ m.positions.length := by
  cases hcore : parseCore initState lines with
  | error e => simp [parseOBJ, hcore] at h
  | ok s =>
    simp only [parseOBJ, hcore] at h
    obtain ⟨k, h1, h2⟩ := parseCore_lens lines initState s hcore
    have h1' : s.positionBuffer.length = 9 * k := by simpa [initState] using h1
    have h2' : s.normalBuffer.length = 9 * k := by simpa [initState] using h2
    by_cases hany : s.normalBuffer.any (fun v => decide (v ≠ 0))
    · rw [if_pos hany] at h
      cases h
      exact ⟨by simp [h1', h2'], ⟨k, by simpa using h1'⟩⟩
    · rw [if_neg hany] at h
      cases h
      exact ⟨by simp [computeFaceNormals_length], ⟨k, by simpa using h1'⟩⟩

/-- C5 witness: the theorem applied to the one-triangle input c5Input. -/
theorem c5_witness : c5Mesh.normals.length = c5Mesh.positions.length ∧
    9 ∣ c5Mesh.positions.length :=
  parse_buffers_lockstep (fun q => q) c5Input c5Mesh (by
    simp [parseOBJ, parseCore, processLine, pushFan, pushTriangle, pushVertex,
      listGetInt, parseFaceToken, initState, computeFaceNormals, triCross,
      safeLength, c5Input, c5Mesh, Bind.bind, Except.bind])


/-! ## C4 -/

/-- peeling one triangle off the index-form fan. -/
theorem fanTriangles_cons {α : Type} (d t0 t1 t2 : α) (l : List α) :
    fanTriangles d (t0 :: t1 :: t2 :: l) = (t0, t1, t2) :: fanTriangles d (t0 :: t2 :: l) := by
  unfold fanTriangles
  have hlen : (t0 :: t1 :: t2 :: l).length - 2 = ((t0 :: t2 :: l).length - 2) + 1 := by
    simp
  rw [hlen, List.range_succ_eq_map]
  simp only [List.map_cons, List.map_map, List.length_cons]
  congr 1

/-- the loop-shaped fan agrees with the index-form fan. -/
theorem fanRec_eq_fan {α : Type} (d : α) : ∀ (l : List α) (t0 t1 t2 : α),
    fanTrianglesRec t0 (t1 :: t2 :: l) = fanTriangles d (t0 :: t1 :: t2 :: l)
  | [], t0, t1, t2 => by
    rw [fanTriangles_cons]
    simp [fanTrianglesRec, fanTriangles]
  | x :: xs, t0, t1, t2 => by
    rw [fanTriangles_cons]
    have ih := fanRec_eq_fan d xs t0 t2 x
    rw [show fanTrianglesRec t0 (t1 :: t2 :: x :: xs) =
      (t0, t1, t2) :: fanTrianglesRec t0 (t2 :: x :: xs) from rfl, ih]

/-- exact effect of one triangle push when all three position lookups hit. -/
theorem pushTriangle_eq (s : PState) (t0 t1 t2 : FaceIndex)
    (h0 : (listGetInt s.vertexPositions t0.vertexIndex).isSome)
    (h1 : (listGetInt s.vertexPositions t1.vertexIndex).isSome)
    (h2 : (listGetInt s.vertexPositions t2.vertexIndex).isSome) :
    pushTriangle s t0 t1 t2 =
      Except.ok (pushResult (pushResult (pushResult s t0) t1) t2) := by
  obtain ⟨p0, hp0⟩ := Option.isSome_iff_exists.mp h0
  obtain ⟨p1, hp1⟩ := Option.isSome_iff_exists.mp h1
  obtain ⟨p2, hp2⟩ := Option.isSome_iff_exists.mp h2
  unfold pushTriangle
  rw [pushVertex_some s t0 p0 hp0]
  simp only [Bind.bind, Except.bind]
  rw [pushVertex_some (pushResult s t0) t1 p1 hp1]
  simp only [Bind.bind, Except.bind]
  rw [pushVertex_some (pushResult (pushResult s t0) t1) t2 p2 hp2]

/-- the vertex table is unchanged by a push. -/
theorem pushResult_vp (s : PState) (f : FaceIndex) :
    (pushResult s f).vertexPositions = s.vertexPositions := rfl

/-- exact effect of a whole fan when every position lookup hits: both buffers
receive the flattened coordinates of the fan triangles, in fan order. -/
theorem pushFan_eq (t0 : FaceIndex) (l : List FaceIndex) : ∀ s : PState,
    (∀ f ∈ t0 :: l, (listGetInt s.vertexPositions f.vertexIndex).isSome) →
    pushFan s t0 l = Except.ok { s with
      positionBuffer := s.positionBuffer ++ fanPosCoords s.vertexPositions (fanTrianglesRec t0 l),
      normalBuffer := s.normalBuffer ++ fanNormCoords s.vertexNormals (fanTrianglesRec t0 l) } := by
  induction l with
  | nil =>
    intro s _
    simp [pushFan, fanTrianglesRec, fanPosCoords, fanNormCoords]
  | cons t1 l' ih =>
    intro s hv
    cases l' with
    | nil => simp [pushFan, fanTrianglesRec, fanPosCoords, fanNormCoords]
    | cons t2 rest =>
      have h0 := hv t0 (List.mem_cons_self _ _)
      have h1 := hv t1 (List.mem_cons_of_mem _ (List.mem_cons_self _ _))
      have h2 := hv t2 (List.mem_cons_of_mem _ (List.mem_cons_of_mem _ (List.mem_cons_self _ _)))
      have hv' : ∀ f ∈ t0 :: t2 :: rest,
          (listGetInt (pushResult (pushResult (pushResult s t0) t1) t2).vertexPositions
            f.vertexIndex).isSome := by
        intro f hf
        rw [pushResult_vp, pushResult_vp, pushResult_vp]
        rcases List.mem_cons.mp hf with rfl | hf'
        · exact h0
        · exact hv f (List.mem_cons_of_mem _ (List.mem_cons_of_mem _ hf'))
      rw [show pushFan s t0 (t1 :: t2 :: rest) =
        (pushTriangle s t0 t1 t2 >>= fun s1 => pushFan s1 t0 (t2 :: rest)) from rfl]
      rw [pushTriangle_eq s t0 t1 t2 h0 h1 h2]
      simp only [Bind.bind, Except.bind]
      rw [ih _ hv']
      rw [show fanTrianglesRec t0 (t1 :: t2 :: rest) =
        (t0, t1, t2) :: fanTrianglesRec t0 (t2 :: rest) from rfl]
      simp [pushResult, fanPosCoords, fanNormCoords, List.append_assoc]

/-- C4: faces are fan-triangulated from the first vertex: a face line with
n >= 3 vertex tokens, all referencing parsed vertices, appends to the output
buffers exactly the coordinates of the n - 2 triangles (v1, vi, vi+1) for
i = 2 .. n-1 in that order, and that fan has exactly n - 2 triangles (so a
quadrilateral face yields exactly the triangles (1, 2, 3) and (1, 3, 4)). -/
theorem c4_fan_triangulation (s : PState) (toks : List (Int × Option Int))
    (h3 : 3 ≤ toks.length)
    (hvalid : ∀ t ∈ toks, (listGetInt s.vertexPositions (t.1 - 1)).isSome) :
    processLine s (ObjLine.fline toks) = Except.ok { s with
      positionBuffer := s.positionBuffer ++
        fanPosCoords s.vertexPositions (fanTriangles dFI (toks.map parseFaceToken)),
      normalBuffer := s.normalBuffer ++
        fanNormCoords s.vertexNormals (fanTriangles dFI (toks.map parseFaceToken)) } ∧
    (fanTriangles dFI (toks.map parseFaceToken)).length = toks.length - 2 := by
  match toks, h3 with
  | tk0 :: tk1 :: tk2 :: tks, _ =>
    constructor
    · have hshape : processLine s (ObjLine.fline (tk0 :: tk1 :: tk2 :: tks)) =
          pushFan s (parseFaceToken tk0)
            (parseFaceToken tk1 :: parseFaceToken tk2 :: tks.map parseFaceToken) := by
        simp [processLine]
      have hv : ∀ f ∈ parseFaceToken tk0 :: parseFaceToken tk1 :: parseFaceToken tk2 ::
          tks.map parseFaceToken, (listGetInt s.vertexPositions f.vertexIndex).isSome := by
        intro f hf
        have hf' : f ∈ (tk0 :: tk1 :: tk2 :: tks).map parseFaceToken := by
          simpa using hf
        obtain ⟨t, htmem, rfl⟩ := List.mem_map.mp hf'
        exact hvalid t htmem
      rw [hshape, pushFan_eq (parseFaceToken tk0)
        (parseFaceToken tk1 :: parseFaceToken tk2 :: tks.map parseFaceToken) s hv]
      rw [fanRec_eq_fan dFI (tks.map parseFaceToken)
        (parseFaceToken tk0) (parseFaceToken tk1) (parseFaceToken tk2)]
      simp
    · simp [fanTriangles]

/-- C4 witness: the theorem applied to the quad face f 1 2 3 4 over four
parsed vertices, yielding the two fan triangles (1, 2, 3) and (1, 3, 4). -/
theorem c4_witness :
    (3 ≤ quadToks.length ∧
      ∀ t ∈ quadToks, (listGetInt quadState.vertexPositions (t.1 - 1)).isSome) ∧
    (processLine quadState (ObjLine.fline quadToks) = Except.ok { quadState with
      positionBuffer := quadState.positionBuffer ++
        fanPosCoords quadState.vertexPositions (fanTriangles dFI (quadToks.map parseFaceToken)),
      normalBuffer := quadState.normalBuffer ++
        fanNormCoords quadState.vertexNormals (fanTriangles dFI (quadToks.map parseFaceToken)) } ∧
     (fanTriangles dFI (quadToks.map parseFaceToken)).length = quadToks.length - 2) :=
  ⟨⟨by decide, by decide⟩,
    c4_fan_triangulation quadState quadToks (by decide) (by decide)⟩

/-! ## C2 -/

/-- C2 counterexample: c2Input supplies an explicit normal line vn 0 0 0 and
every face corner references it, so the parsed per-vertex normal buffer is
nine zeros; the claim says any explicit normal suppresses synthesis and the
parsed normals are kept, yet the parser returns the synthesized per-triangle
normals (0, 0, 1), not the parsed zeros. -/
theorem c2_counterexample :
    parseOBJ (fun q => q) c2Input =
      Except.ok { positions := [0, 0, 0, 1, 0, 0, 0, 1, 0],
                  normals := [0, 0, 1, 0, 0, 1, 0, 0, 1] } ∧
    ([0, 0, 1, 0, 0, 1, 0, 0, 1] : List ℚ) ≠ [0, 0, 0, 0, 0, 0, 0, 0, 0] := by
  constructor
  · simp [parseOBJ, parseCore, processLine, pushFan, pushTriangle, pushVertex,
      listGetInt, parseFaceToken, initState, computeFaceNormals, triCross,
      safeLength, c2Input, Bind.bind, Except.bind]
  · simp

/-- C2 amended: the synthesized-normals fallback is all-or-nothing and fires
exactly when the assembled per-vertex normal buffer contains no nonzero
component (every referenced normal missing or the zero vector) — not when
"no explicit normal exists": if every collected entry is zero the whole
buffer is replaced by the per-triangle synthesis, and if any collected entry
is nonzero the collected buffer is returned unchanged. -/
theorem c2_fallback_iff_zero_buffer (sq : ℚ → ℚ) (lines : List ObjLine) (s : PState)
    (h : parseCore initState lines = Except.ok s) :
    ((∀ v ∈ s.normalBuffer, v = 0) ∧
      parseOBJ sq lines = Except.ok
        { positions := s.positionBuffer,
          normals := computeFaceNormals sq s.positionBuffer }) ∨
    ((∃ v ∈ s.normalBuffer, v ≠ 0) ∧
      parseOBJ sq lines = Except.ok
        { positions := s.positionBuffer,
          normals := s.normalBuffer }) := by
  by_cases hany : s.normalBuffer.any (fun v => decide (v ≠ 0))
  · right
    constructor
    · simpa using List.any_eq_true.mp hany
    · simp only [parseOBJ, h]
      rw [if_pos hany]
  · left
    constructor
    · intro v hv
      by_contra hne
      exact hany (List.any_eq_true.mpr ⟨v, hv, by simp [hne]⟩)
    · simp only [parseOBJ, h]
      rw [if_neg hany]

/-- C2 witness: the amended statement applied to a faceless input, whose
empty all-zero buffer is replaced by the (empty) synthesis. -/
theorem c2_witness :
    ((∀ v ∈ ([] : List ℚ), v = 0) ∧
      parseOBJ (fun q => q) [ObjLine.vline 0 0 0] =
        Except.ok { positions := [], normals := computeFaceNormals (fun q => q) [] }) ∨
    ((∃ v ∈ ([] : List ℚ), v ≠ 0) ∧
      parseOBJ (fun q => q) [ObjLine.vline 0 0 0] =
        Except.ok { positions := [], normals := [] }) :=
  c2_fallback_iff_zero_buffer (fun q => q) [ObjLine.vline 0 0 0]
    { vertexPositions := [⟨0, 0, 0⟩], vertexNormals := [],
      positionBuffer := [], normalBuffer := [] } rfl

/-! ## C6 -/

/-- foldl-min commutes with any map commuting with binary min. -/
theorem foldl_min_map (g : ℚ → ℚ) (hg : ∀ a b, min (g a) (g b) = g (min a b)) :
    ∀ (l : List ℚ) (a : ℚ), (l.map g).foldl min (g a) = g (l.foldl min a) := by
  intro l
  induction l with
  | nil => intro a; rfl
  | cons x xs ih =>
    intro a
    simp only [List.map_cons, List.foldl_cons]
    rw [hg a x]
    exact ih _

/-- foldl-max commutes with any map commuting with binary max. -/
theorem foldl_max_map (g : ℚ → ℚ) (hg : ∀ a b, max (g a) (g b) = g (max a b)) :
    ∀ (l : List ℚ) (a : ℚ), (l.map g).foldl max (g a) = g (l.foldl max a) := by
  intro l
  induction l with
  | nil => intro a; rfl
  | cons x xs ih =>
    intro a
    simp only [List.map_cons, List.foldl_cons]
    rw [hg a x]
    exact ih _

/-- listMin commutes with any map commuting with binary min. -/
theorem listMin_map (g : ℚ → ℚ) (hg : ∀ a b, min (g a) (g b) = g (min a b))
    (l : List ℚ) (h : l ≠ []) : listMin (l.map g) = g (listMin l) := by
  cases l with
  | nil => exact absurd rfl h
  | cons x xs =>
    simp only [List.map_cons, listMin]
    exact foldl_min_map g hg xs x

/-- listMax commutes with any map commuting with binary max. -/
theorem listMax_map (g : ℚ → ℚ) (hg : ∀ a b, max (g a) (g b) = g (max a b))
    (l : List ℚ) (h : l ≠ []) : listMax (l.map g) = g (listMax l) := by
  cases l with
  | nil => exact absurd rfl h
  | cons x xs =>
    simp only [List.map_cons, listMax]
    exact foldl_max_map g hg xs x

/-- translating every entry translates the least entry. -/
theorem listMin_sub (c : ℚ) (l : List ℚ) (h : l ≠ []) :
    listMin (l.map (fun v => v - c)) = listMin l - c :=
  listMin_map _ (fun a b => min_sub_sub_right a b c) l h

/-- translating every entry translates the greatest entry. -/
theorem listMax_sub (c : ℚ) (l : List ℚ) (h : l ≠ []) :
    listMax (l.map (fun v => v - c)) = listMax l - c :=
  listMax_map _ (fun a b => max_sub_sub_right a b c) l h

/-- scaling every entry by a nonnegative factor scales the least entry. -/
theorem listMin_mul (u : ℚ) (hu : 0 ≤ u) (l : List ℚ) (h : l ≠ []) :
    listMin (l.map (fun v => u * v)) = u * listMin l :=
  listMin_map _ (fun a b => (mul_min_of_nonneg a b hu).symm) l h

/-- scaling every entry by a nonnegative factor scales the greatest entry. -/
theorem listMax_mul (u : ℚ) (hu : 0 ≤ u) (l : List ℚ) (h : l ≠ []) :
    listMax (l.map (fun v => u * v)) = u * listMax l :=
  listMax_map _ (fun a b => (mul_max_of_nonneg a b hu).symm) l h

/-- normalizeMesh in one pass: scale-after-translate baked into a single map. -/
theorem normalizeMesh_map_eq (ps : List Vec3) :
    normalizeMesh ps = ps.map (fun p => Vec3.mk
      (normScale ps * (p.x - (aabbCenter ps).x))
      (normScale ps * (p.y - (aabbCenter ps).y))
      (normScale ps * (p.z - (aabbCenter ps).z))) := by
  simp only [normalizeMesh, centeredMesh, normScale, List.map_map]
  rfl

/-- C6: for every mesh with a non-degenerate bounding box, normalizeMesh
(translate by minus the box center, then scale by the reciprocal of the
largest half extent) yields positions whose recomputed bounding box is
centered at the origin and whose largest axis-aligned extent is exactly the
reference size 2, over exact arithmetic. -/
theorem c6_normalized_box (ps : List Vec3) (hne : ps ≠ [])
    (hnd : 0 < maxHalfExtent ps) :
    aabbCenter (normalizeMesh ps) = ⟨0, 0, 0⟩ ∧
    max (max (maxCoord Vec3.x (normalizeMesh ps) - minCoord Vec3.x (normalizeMesh ps))
      (maxCoord Vec3.y (normalizeMesh ps) - minCoord Vec3.y (normalizeMesh ps)))
      (maxCoord Vec3.z (normalizeMesh ps) - minCoord Vec3.z (normalizeMesh ps)) = 2 := by
  have hne1 : ps.map Vec3.x ≠ [] := by simp [hne]
  have hne2 : ps.map Vec3.y ≠ [] := by simp [hne]
  have hne3 : ps.map Vec3.z ≠ [] := by simp [hne]
  have hnesx : (ps.map Vec3.x).map (fun v => v - (aabbCenter ps).x) ≠ [] := by simp [hne]
  have hnesy : (ps.map Vec3.y).map (fun v => v - (aabbCenter ps).y) ≠ [] := by simp [hne]
  have hnesz : (ps.map Vec3.z).map (fun v => v - (aabbCenter ps).z) ≠ [] := by simp [hne]
  have hcx : (centeredMesh ps).map Vec3.x =
      (ps.map Vec3.x).map (fun v => v - (aabbCenter ps).x) := by
    simp [centeredMesh, List.map_map]
  have hcy : (centeredMesh ps).map Vec3.y =
      (ps.map Vec3.y).map (fun v => v - (aabbCenter ps).y) := by
    simp [centeredMesh, List.map_map]
  have hcz : (centeredMesh ps).map Vec3.z =
      (ps.map Vec3.z).map (fun v => v - (aabbCenter ps).z) := by
    simp [centeredMesh, List.map_map]
  have hext : extendSize (centeredMesh ps) = extendSize ps := by
    unfold extendSize minCoord maxCoord
    rw [hcx, hcy, hcz, listMin_sub _ _ hne1, listMax_sub _ _ hne1,
      listMin_sub _ _ hne2, listMax_sub _ _ hne2,
      listMin_sub _ _ hne3, listMax_sub _ _ hne3]
    simp only [Vec3.mk.injEq]
    refine ⟨by ring, by ring, by ring⟩
  have hm : maxHalfExtent (centeredMesh ps) = maxHalfExtent ps := by
    unfold maxHalfExtent
    rw [hext]
  have hmz : maxHalfExtent ps ≠ 0 := ne_of_gt hnd
  have hscale : normScale ps = 1 / maxHalfExtent ps := by
    unfold normScale
    rw [hm, if_neg hmz]
  have hu0 : 0 ≤ normScale ps := by
    rw [hscale]
    positivity
  have hox : (normalizeMesh ps).map Vec3.x =
      ((ps.map Vec3.x).map (fun v => v - (aabbCenter ps).x)).map
        (fun v => normScale ps * v) := by
    rw [normalizeMesh_map_eq]
    simp [List.map_map]
  have hoy : (normalizeMesh ps).map Vec3.y =
      ((ps.map Vec3.y).map (fun v => v - (aabbCenter ps).y)).map
        (fun v => normScale ps * v) := by
    rw [normalizeMesh_map_eq]
    simp [List.map_map]
  have hoz : (normalizeMesh ps).map Vec3.z =
      ((ps.map Vec3.z).map (fun v => v - (aabbCenter ps).z)).map
        (fun v => normScale ps * v) := by
    rw [normalizeMesh_map_eq]
    simp [List.map_map]
  have hminx : minCoord Vec3.x (normalizeMesh ps) =
      normScale ps * (minCoord Vec3.x ps - (aabbCenter ps).x) := by
    unfold minCoord
    rw [hox, listMin_mul _ hu0 _ hnesx, listMin_sub _ _ hne1]
  have hmaxx : maxCoord Vec3.x (normalizeMesh ps) =
      normScale ps * (maxCoord Vec3.x ps - (aabbCenter ps).x) := by
    unfold maxCoord
    rw [hox, listMax_mul _ hu0 _ hnesx, listMax_sub _ _ hne1]
  have hminy : minCoord Vec3.y (normalizeMesh ps) =
      normScale ps * (minCoord Vec3.y ps - (aabbCenter ps).y) := by
    unfold minCoord
    rw [hoy, listMin_mul _ hu0 _ hnesy, listMin_sub _ _ hne2]
  have hmaxy : maxCoord Vec3.y (normalizeMesh ps) =
      normScale ps * (maxCoord Vec3.y ps - (aabbCenter ps).y) := by
    unfold maxCoord
    rw [hoy, listMax_mul _ hu0 _ hnesy, listMax_sub _ _ hne2]
  have hminz : minCoord Vec3.z (normalizeMesh ps) =
      normScale ps * (minCoord Vec3.z ps - (aabbCenter ps).z) := by
    unfold minCoord
    rw [hoz, listMin_mul _ hu0 _ hnesz, listMin_sub _ _ hne3]
  have hmaxz : maxCoord Vec3.z (normalizeMesh ps) =
      normScale ps * (maxCoord Vec3.z ps - (aabbCenter ps).z) := by
    unfold maxCoord
    rw [hoz, listMax_mul _ hu0 _ hnesz, listMax_sub _ _ hne3]
  have hax : (aabbCenter ps).x = (minCoord Vec3.x ps + maxCoord Vec3.x ps) / 2 := rfl
  have hay : (aabbCenter ps).y = (minCoord Vec3.y ps + maxCoord Vec3.y ps) / 2 := rfl
  have haz : (aabbCenter ps).z = (minCoord Vec3.z ps + maxCoord Vec3.z ps) / 2 := rfl
  constructor
  · unfold aabbCenter
    rw [hminx, hmaxx, hminy, hmaxy, hminz, hmaxz, hax, hay, haz]
    simp only [Vec3.mk.injEq]
    refine ⟨by ring, by ring, by ring⟩
  · rw [hminx, hmaxx, hminy, hmaxy, hminz, hmaxz]
    have dx : normScale ps * (maxCoord Vec3.x ps - (aabbCenter ps).x) -
        normScale ps * (minCoord Vec3.x ps - (aabbCenter ps).x) =
        normScale ps * (maxCoord Vec3.x ps - minCoord Vec3.x ps) := by ring
    have dy : normScale ps * (maxCoord Vec3.y ps - (aabbCenter ps).y) -
        normScale ps * (minCoord Vec3.y ps - (aabbCenter ps).y) =
        normScale ps * (maxCoord Vec3.y ps - minCoord Vec3.y ps) := by ring
    have dz : normScale ps * (maxCoord Vec3.z ps - (aabbCenter ps).z) -
        normScale ps * (minCoord Vec3.z ps - (aabbCenter ps).z) =
        normScale ps * (maxCoord Vec3.z ps - minCoord Vec3.z ps) := by ring
    rw [dx, dy, dz, ← mul_max_of_nonneg _ _ hu0, ← mul_max_of_nonneg _ _ hu0]
    have h2m : max (max (maxCoord Vec3.x ps - minCoord Vec3.x ps)
        (maxCoord Vec3.y ps - minCoord Vec3.y ps))
        (maxCoord Vec3.z ps - minCoord Vec3.z ps) = 2 * maxHalfExtent ps := by
      unfold maxHalfExtent extendSize
      rw [mul_max_of_nonneg _ _ (by norm_num : (0:ℚ) ≤ 2),
        mul_max_of_nonneg _ _ (by norm_num : (0:ℚ) ≤ 2)]
      congr 1
      · congr 1 <;> ring
      · ring
    rw [h2m, hscale]
    field_simp

/-- C6 witness: the theorem applied to the two-corner mesh c6Input, whose
box spans 4 x 2 x 0. -/
theorem c6_witness :
    (c6Input ≠ [] ∧ 0 < maxHalfExtent c6Input) ∧
    (aabbCenter (normalizeMesh c6Input) = ⟨0, 0, 0⟩ ∧
     max (max (maxCoord Vec3.x (normalizeMesh c6Input) - minCoord Vec3.x (normalizeMesh c6Input))
       (maxCoord Vec3.y (normalizeMesh c6Input) - minCoord Vec3.y (normalizeMesh c6Input)))
       (maxCoord Vec3.z (normalizeMesh c6Input) - minCoord Vec3.z (normalizeMesh c6Input)) = 2) :=
  ⟨⟨by simp [c6Input],
    by norm_num [maxHalfExtent, extendSize, minCoord, maxCoord, listMin, listMax, c6Input]⟩,
    c6_normalized_box c6Input (by simp [c6Input])
      (by norm_num [maxHalfExtent, extendSize, minCoord, maxCoord, listMin, listMax, c6Input])⟩
